import Mathlib

/-!
Shallow embedding of the semantic-state-estimator engine
(`src/crate/src/lib.rs`).  The Rust `f32`/`f64` arithmetic is modelled
over the exact reals `ℝ`; machine vectors become `List ℝ`.  Each Lean
definition mirrors one Rust item, keeping the source's name.
-/

namespace SemanticState

/-- Rust `f32::clamp` / `f64::clamp`: `x.clamp lo hi` (for `lo ≤ hi` and
non-NaN arguments it returns `lo` if `x < lo`, `hi` if `x > hi`, else `x`). -/
noncomputable def rclamp (x lo hi : ℝ) : ℝ :=
  max lo (min x hi)

/-- `fn dot(a: &[f32], b: &[f32]) -> f32`: sum of elementwise products of the
zipped slices. -/
noncomputable def dot (a b : List ℝ) : ℝ :=
  ((a.zip b).map fun p => p.1 * p.2).sum

/-- `fn magnitude(v: &[f32]) -> f32`: `dot(v, v).sqrt()`. -/
noncomputable def magnitude (v : List ℝ) : ℝ :=
  Real.sqrt (dot v v)

/-- `fn cosine_similarity(a: &[f32], b: &[f32]) -> f32`: returns `0.0` when
either magnitude is zero, otherwise `dot/(mag_a*mag_b)` clamped to `[-1, 1]`. -/
noncomputable def cosine_similarity (a b : List ℝ) : ℝ :=
  if magnitude a = 0 ∨ magnitude b = 0 then 0
  else rclamp (dot a b / (magnitude a * magnitude b)) (-1) 1

/-- `fn ema_fusion(current, previous, alpha)`: elementwise
`alpha * c + (1 - alpha) * p` over the zipped slices. -/
noncomputable def ema_fusion (current previous : List ℝ) (alpha : ℝ) : List ℝ :=
  (current.zip previous).map fun p => alpha * p.1 + (1 - alpha) * p.2

/-- `const AGE_DECAY_RATE: f32 = 0.0001`. -/
noncomputable def AGE_DECAY_RATE : ℝ := 0.0001

/-- `const DRIFT_WEIGHT: f32 = 0.5`. -/
noncomputable def DRIFT_WEIGHT : ℝ := 0.5

/-- `pub struct UpdateResult` returned from `WasmStateEngine::update`. -/
structure UpdateResult where
  drift_detected : Bool
  drift_score : ℝ
  vector : List ℝ

/-- `pub struct Snapshot` returned from `WasmStateEngine::get_snapshot`. -/
structure Snapshot where
  vector : List ℝ
  health_score : ℝ
  timestamp : ℝ
  semantic_summary : String

/-- `pub struct WasmStateEngine`: the engine's mutable state. -/
structure WasmStateEngine where
  alpha : ℝ
  drift_threshold : ℝ
  state_vector : List ℝ
  last_updated_at : ℝ
  last_drift : ℝ
  update_count : ℕ

namespace WasmStateEngine

/-- `WasmStateEngine::new(alpha, drift_threshold)`. -/
noncomputable def new (alpha drift_threshold : ℝ) : WasmStateEngine :=
  { alpha := alpha
    drift_threshold := drift_threshold
    state_vector := []
    last_updated_at := 0
    last_drift := 0
    update_count := 0 }

/-- `WasmStateEngine::update(&mut self, embedding, now_ms)`.  The Rust method
mutates `self` and returns `Result`; here it returns the result together with
the post-call engine.  The error early-returns happen before any field is
written, so the engine component is unchanged on those paths. -/
noncomputable def update (self : WasmStateEngine) (embedding : List ℝ)
    (now_ms : ℝ) : Except String UpdateResult × WasmStateEngine :=
  if embedding.isEmpty then
    (Except.error "Embedding must not be empty", self)
  else if self.update_count = 0 then
    -- First call: establish baseline from a zero-vector origin.
    let zero : List ℝ := List.replicate embedding.length 0
    ( Except.ok { drift_detected := false, drift_score := 0, vector := embedding }
    , { self with
          state_vector := ema_fusion embedding zero self.alpha
          last_updated_at := now_ms
          update_count := self.update_count + 1 } )
  else if embedding.length ≠ self.state_vector.length then
    ( Except.error ("Embedding dimension mismatch: expected "
        ++ toString self.state_vector.length ++ ", got "
        ++ toString embedding.length)
    , self )
  else
    let similarity := cosine_similarity self.state_vector embedding
    let drift := 1 - similarity
    let detected : Bool := decide (similarity < self.drift_threshold)
    ( Except.ok { drift_detected := detected, drift_score := drift, vector := embedding }
    , { self with
          state_vector := ema_fusion embedding self.state_vector self.alpha
          last_drift := drift
          last_updated_at := now_ms
          update_count := self.update_count + 1 } )

/-- `WasmStateEngine::calculate_health(&self, now_ms)`. -/
noncomputable def calculate_health (self : WasmStateEngine) (now_ms : ℝ) : ℝ :=
  let time_since_update := max (now_ms - self.last_updated_at) 0
  let age_penalty := time_since_update * AGE_DECAY_RATE
  let drift_penalty := self.last_drift * DRIFT_WEIGHT
  rclamp (1 - age_penalty - drift_penalty) 0 1

/-- `WasmStateEngine::build_summary(health_score)`. -/
noncomputable def build_summary (health_score : ℝ) : String :=
  if health_score > 0.8 then "stable"
  else if health_score > 0.5 then "drifting"
  else "volatile"

/-- `WasmStateEngine::get_snapshot(&self, now_ms)` (the serialisation step,
which never alters the numeric content, is dropped). -/
noncomputable def get_snapshot (self : WasmStateEngine) (now_ms : ℝ) : Snapshot :=
  let health_score := self.calculate_health now_ms
  { vector := self.state_vector
    health_score := health_score
    timestamp := self.last_updated_at
    semantic_summary := build_summary health_score }

end WasmStateEngine

/-- Folds a list of `(embedding, now_ms)` calls through `update`, keeping the
engine and discarding the per-call results. -/
noncomputable def runCalls (e : WasmStateEngine) (calls : List (List ℝ × ℝ)) :
    WasmStateEngine :=
  calls.foldl (fun s c => (s.update c.1 c.2).2) e

/-! ### Helper lemmas -/

theorem ema_fusion_length (c p : List ℝ) (a : ℝ) :
    (ema_fusion c p a).length = min c.length p.length := by
  simp [ema_fusion]

theorem ema_fusion_one (c : List ℝ) : ∀ p : List ℝ, c.length = p.length →
    ema_fusion c p 1 = c := by
  induction c with
  | nil => intro p h; simp [ema_fusion]
  | cons x xs ih =>
    intro p h
    cases p with
    | nil => simp at h
    | cons y ys =>
      have hxs := ih ys (by simpa using h)
      simp only [ema_fusion, List.zip_cons_cons, List.map_cons, List.cons.injEq]
      exact ⟨by ring, hxs⟩

theorem ema_fusion_zero (c : List ℝ) : ∀ p : List ℝ, c.length = p.length →
    ema_fusion c p 0 = p := by
  induction c with
  | nil =>
    intro p h
    cases p with
    | nil => simp [ema_fusion]
    | cons y ys => simp at h
  | cons x xs ih =>
    intro p h
    cases p with
    | nil => simp at h
    | cons y ys =>
      have hxs := ih ys (by simpa using h)
      simp only [ema_fusion, List.zip_cons_cons, List.map_cons, List.cons.injEq]
      exact ⟨by ring, hxs⟩

theorem cosine_similarity_bounds (a b : List ℝ) :
    -1 ≤ cosine_similarity a b ∧ cosine_similarity a b ≤ 1 := by
  unfold cosine_similarity
  split
  · norm_num
  · unfold rclamp
    exact ⟨le_max_left _ _, max_le (by norm_num) (min_le_right _ _)⟩

/-- Case analysis for a successful `update`: either the baseline branch ran
(`update_count = 0`) or the tracking branch ran, with the exact result and
post-state of each. -/
theorem update_ok_cases (e : WasmStateEngine) (emb : List ℝ) (now : ℝ)
    (r : UpdateResult) (e₂ : WasmStateEngine)
    (h : e.update emb now = (Except.ok r, e₂)) :
    emb ≠ [] ∧
    ((e.update_count = 0 ∧
        r = ⟨false, 0, emb⟩ ∧
        e₂ = { e with
                 state_vector := ema_fusion emb (List.replicate emb.length 0) e.alpha
                 last_updated_at := now
                 update_count := e.update_count + 1 }) ∨
     (e.update_count ≠ 0 ∧ emb.length = e.state_vector.length ∧
        r = ⟨decide (cosine_similarity e.state_vector emb < e.drift_threshold),
             1 - cosine_similarity e.state_vector emb, emb⟩ ∧
        e₂ = { e with
                 state_vector := ema_fusion emb e.state_vector e.alpha
                 last_drift := 1 - cosine_similarity e.state_vector emb
                 last_updated_at := now
                 update_count := e.update_count + 1 })) := by
  unfold WasmStateEngine.update at h
  split at h
  next hemp => exact absurd h (by simp)
  next hemp =>
    have hne : emb ≠ [] := by simpa using hemp
    split at h
    next hcnt =>
      injection h with h1 h2
      injection h1 with hr
      exact ⟨hne, Or.inl ⟨hcnt, hr.symm, h2.symm⟩⟩
    next hcnt =>
      split at h
      next hmis => exact absurd h (by simp)
      next hmis =>
        dsimp only at h
        injection h with h1 h2
        injection h1 with hr
        exact ⟨hne, Or.inr ⟨hcnt, not_ne_iff.mp hmis, hr.symm, h2.symm⟩⟩

/-- On any error path, `update` leaves the engine unchanged. -/
theorem update_error_state (e : WasmStateEngine) (emb : List ℝ) (now : ℝ)
    (msg : String) (h : (e.update emb now).1 = Except.error msg) :
    (e.update emb now).2 = e := by
  unfold WasmStateEngine.update at h ⊢
  split at h
  next hemp => rw [if_pos hemp]
  next hemp =>
    rw [if_neg hemp]
    split at h
    next hcnt => exact absurd h (by simp)
    next hcnt =>
      rw [if_neg hcnt]
      split at h
      next hmis => rw [if_pos hmis]
      next hmis => exfalso; simp at h

/-- The empty-embedding message never coincides with a dimension-mismatch
message (their lengths differ, whatever the two numbers are). -/
theorem empty_msg_ne_mismatch_msg (s t : String) :
    "Embedding must not be empty"
      ≠ "Embedding dimension mismatch: expected " ++ s ++ ", got " ++ t := by
  intro h
  have hlen := congrArg String.length h
  rw [String.length_append, String.length_append, String.length_append] at hlen
  have h1 : ("Embedding must not be empty").length = 27 := rfl
  have h2 : ("Embedding dimension mismatch: expected ").length = 39 := rfl
  have h3 : (", got ").length = 6 := rfl
  omega

/-! ### Claims -/

/-- Claim C2: on a fresh engine (`update_count = 0`) the first `update` with a
non-empty embedding succeeds, returns `driftDetected = false`,
`driftScore = 0`, `vector = emb`, and sets the state vector to
`ema_fusion emb zeros alpha`. -/
theorem C2_first_update (e : WasmStateEngine) (emb : List ℝ) (now : ℝ)
    (h0 : e.update_count = 0) (hne : emb ≠ []) :
    (e.update emb now).1 = Except.ok ⟨false, 0, emb⟩ ∧
    (e.update emb now).2.state_vector
      = ema_fusion emb (List.replicate emb.length 0) e.alpha := by
  unfold WasmStateEngine.update
  rw [if_neg (by simpa using hne), if_pos h0]
  exact ⟨rfl, rfl⟩

/-- Witness for C2: a freshly constructed engine with `alpha = 1/2`,
threshold `1/2`, first update with `[1, 2]` at time `5`. -/
theorem C2_witness :
    (WasmStateEngine.new (1/2) (1/2)).update_count = 0 ∧
    ([1, 2] : List ℝ) ≠ [] ∧
    (((WasmStateEngine.new (1/2) (1/2)).update [1, 2] 5).1
        = Except.ok ⟨false, 0, [1, 2]⟩ ∧
     ((WasmStateEngine.new (1/2) (1/2)).update [1, 2] 5).2.state_vector
        = ema_fusion [1, 2] (List.replicate ([1, 2] : List ℝ).length 0)
            (WasmStateEngine.new (1/2) (1/2)).alpha) :=
  ⟨rfl, by simp, C2_first_update (WasmStateEngine.new (1/2) (1/2)) [1, 2] 5 rfl (by simp)⟩

/-- Claim C6: the drift score of every successful `update` lies in `[0, 2]`. -/
theorem C6_drift_score_range (e : WasmStateEngine) (emb : List ℝ) (now : ℝ)
    (r : UpdateResult) (e₂ : WasmStateEngine)
    (h : e.update emb now = (Except.ok r, e₂)) :
    0 ≤ r.drift_score ∧ r.drift_score ≤ 2 := by
  rcases (update_ok_cases e emb now r e₂ h).2 with ⟨_, hr, _⟩ | ⟨_, _, hr, _⟩
  · subst hr; dsimp only; norm_num
  · subst hr
    dsimp only
    have hb := cosine_similarity_bounds e.state_vector emb
    constructor
    · linarith [hb.2]
    · linarith [hb.1]

/-- Witness for C6: the baseline update of a fresh engine with `[1]`. -/
theorem C6_witness :
    0 ≤ (UpdateResult.mk false 0 [1]).drift_score
      ∧ (UpdateResult.mk false 0 [1]).drift_score ≤ 2 :=
  C6_drift_score_range (WasmStateEngine.new 1 1) [1] 0 (UpdateResult.mk false 0 [1])
    ((WasmStateEngine.new 1 1).update [1] 0).2 rfl

/-- Claim C4: whenever `update` returns an error, the engine state is
unchanged, and a following call behaves exactly as if the failed call had
never happened. -/
theorem C4_error_preserves_state (e : WasmStateEngine) (emb emb2 : List ℝ)
    (now now2 : ℝ) (msg : String)
    (h : (e.update emb now).1 = Except.error msg) :
    (e.update emb now).2 = e ∧
    (e.update emb now).2.update emb2 now2 = e.update emb2 now2 := by
  have h2 := update_error_state e emb now msg h
  exact ⟨h2, by rw [h2]⟩

/-- Witness for C4: the empty-embedding error on a fresh engine, followed by a
valid call with `[1]`. -/
theorem C4_witness :
    ((WasmStateEngine.new (1/2) (1/2)).update [] 0).2
        = WasmStateEngine.new (1/2) (1/2) ∧
    ((WasmStateEngine.new (1/2) (1/2)).update [] 0).2.update [1] 1
        = (WasmStateEngine.new (1/2) (1/2)).update [1] 1 :=
  C4_error_preserves_state (WasmStateEngine.new (1/2) (1/2)) [] [1] 0 1
    "Embedding must not be empty" rfl

/-- Claim C3: `update` errors exactly on an empty embedding or, once
`update_count > 0`, on a length different from the state vector's; the
messages are exactly the two documented strings. -/
theorem C3_error_iff (e : WasmStateEngine) (emb : List ℝ) (now : ℝ) :
    ((e.update emb now).1 = Except.error "Embedding must not be empty"
      ↔ emb = []) ∧
    ((e.update emb now).1
        = Except.error ("Embedding dimension mismatch: expected "
            ++ toString e.state_vector.length ++ ", got " ++ toString emb.length)
      ↔ emb ≠ [] ∧ e.update_count ≠ 0 ∧ emb.length ≠ e.state_vector.length) ∧
    ((∃ msg, (e.update emb now).1 = Except.error msg)
      ↔ emb = [] ∨ (e.update_count ≠ 0 ∧ emb.length ≠ e.state_vector.length)) := by
  unfold WasmStateEngine.update
  by_cases hemp : emb.isEmpty
  · have he : emb = [] := by simpa using hemp
    rw [if_pos hemp]
    refine ⟨⟨fun _ => he, fun _ => rfl⟩, ?_, ?_⟩
    · constructor
      · intro hmsg
        simp only [Except.error.injEq] at hmsg
        exact absurd hmsg (empty_msg_ne_mismatch_msg _ _)
      · rintro ⟨hne, _⟩
        exact absurd he hne
    · exact ⟨fun _ => Or.inl he, fun _ => ⟨_, rfl⟩⟩
  · have hne : emb ≠ [] := by simpa using hemp
    rw [if_neg hemp]
    by_cases hcnt : e.update_count = 0
    · rw [if_pos hcnt]
      refine ⟨?_, ?_, ?_⟩
      · constructor
        · intro hmsg; simp at hmsg
        · intro he; exact absurd he hne
      · constructor
        · intro hmsg; simp at hmsg
        · rintro ⟨_, hc, _⟩; exact absurd hcnt hc
      · constructor
        · rintro ⟨msg, hmsg⟩; simp at hmsg
        · rintro (he | ⟨hc, _⟩)
          · exact absurd he hne
          · exact absurd hcnt hc
    · rw [if_neg hcnt]
      by_cases hmis : emb.length ≠ e.state_vector.length
      · rw [if_pos hmis]
        refine ⟨?_, ?_, ?_⟩
        · constructor
          · intro hmsg
            simp only [Except.error.injEq] at hmsg
            exact absurd hmsg.symm (empty_msg_ne_mismatch_msg _ _)
          · intro he; exact absurd he hne
        · exact ⟨fun _ => ⟨hne, hcnt, hmis⟩, fun _ => rfl⟩
        · exact ⟨fun _ => Or.inr ⟨hcnt, hmis⟩, fun _ => ⟨_, rfl⟩⟩
      · rw [if_neg hmis]
        refine ⟨?_, ?_, ?_⟩
        · constructor
          · intro hmsg; simp at hmsg
          · intro he; exact absurd he hne
        · constructor
          · intro hmsg; simp at hmsg
          · rintro ⟨_, _, hm⟩; exact absurd hm hmis
        · constructor
          · rintro ⟨msg, hmsg⟩; simp at hmsg
          · rintro (he | ⟨_, hm⟩)
            · exact absurd he hne
            · exact absurd hm hmis

/-- One call (of any outcome) keeps a tracking engine tracking and preserves
the state-vector length. -/
theorem update_preserves_tracking (e : WasmStateEngine) (emb : List ℝ)
    (now : ℝ) (h0 : 0 < e.update_count) :
    0 < ((e.update emb now).2).update_count ∧
    ((e.update emb now).2).state_vector.length = e.state_vector.length := by
  rcases hu : e.update emb now with ⟨res, e₂⟩
  cases res with
  | error msg =>
    have he2 : e₂ = e := by
      have hx := update_error_state e emb now msg (by rw [hu])
      rw [hu] at hx
      exact hx
    subst he2
    exact ⟨h0, rfl⟩
  | ok r =>
    rcases (update_ok_cases e emb now r e₂ hu).2 with ⟨hc, _, _⟩ | ⟨_, hlen, _, he2⟩
    · exact absurd hc (Nat.pos_iff_ne_zero.mp h0)
    · subst he2
      simp only [hu]
      refine ⟨Nat.succ_pos _, ?_⟩
      rw [ema_fusion_length, hlen, min_self]

/-- Claim C5: once tracking (`update_count > 0`), the engine stays tracking
through any further sequence of calls and its state-vector length never
changes; and the first successful update establishes tracking with the state
vector at the embedding's length. -/
theorem C5_tracking_forever :
    (∀ (e : WasmStateEngine) (calls : List (List ℝ × ℝ)),
        0 < e.update_count →
        0 < (runCalls e calls).update_count ∧
        (runCalls e calls).state_vector.length = e.state_vector.length) ∧
    (∀ (e : WasmStateEngine) (emb : List ℝ) (now : ℝ) (r : UpdateResult)
        (e₂ : WasmStateEngine), e.update_count = 0 →
        e.update emb now = (Except.ok r, e₂) →
        0 < e₂.update_count ∧ e₂.state_vector.length = emb.length) := by
  constructor
  · intro e calls
    induction calls generalizing e with
    | nil => intro h0; exact ⟨h0, rfl⟩
    | cons c cs ih =>
      intro h0
      have hstep := update_preserves_tracking e c.1 c.2 h0
      have hrun : runCalls e (c :: cs) = runCalls ((e.update c.1 c.2).2) cs := rfl
      rw [hrun]
      obtain ⟨ha, hb⟩ := ih ((e.update c.1 c.2).2) hstep.1
      exact ⟨ha, hb.trans hstep.2⟩
  · intro e emb now r e₂ h0 h
    rcases (update_ok_cases e emb now r e₂ h).2 with ⟨_, _, he2⟩ | ⟨hc, _, _, _⟩
    · subst he2
      refine ⟨Nat.succ_pos _, ?_⟩
      simp only
      rw [ema_fusion_length, List.length_replicate, min_self]
    · exact absurd h0 hc

/-- Witness for C5: a tracking engine with one-element state run through one
further call, and the baseline update of a fresh engine with `[1, 2]`. -/
theorem C5_witness :
    (0 < (runCalls ⟨1, 1, [5], 0, 0, 1⟩ [([2], 3)]).update_count ∧
        (runCalls ⟨1, 1, [5], 0, 0, 1⟩ [([2], 3)]).state_vector.length
          = (⟨1, 1, [5], 0, 0, 1⟩ : WasmStateEngine).state_vector.length) ∧
    (0 < ((WasmStateEngine.new 1 1).update [1, 2] 0).2.update_count ∧
        ((WasmStateEngine.new 1 1).update [1, 2] 0).2.state_vector.length
          = ([1, 2] : List ℝ).length) :=
  ⟨C5_tracking_forever.1 ⟨1, 1, [5], 0, 0, 1⟩ [([2], 3)] (by norm_num),
   C5_tracking_forever.2 (WasmStateEngine.new 1 1) [1, 2] 0 _
     ((WasmStateEngine.new 1 1).update [1, 2] 0).2 rfl rfl⟩

theorem dot_self_zero (v : List ℝ) (h : ∀ x ∈ v, x = 0) : dot v v = 0 := by
  unfold dot
  apply List.sum_eq_zero
  intro x hx
  rcases List.mem_map.mp hx with ⟨⟨a, b⟩, hp, rfl⟩
  have ha := (List.of_mem_zip hp).1
  rw [h a ha]
  exact zero_mul b

theorem magnitude_zero_of_allzero (v : List ℝ) (h : ∀ x ∈ v, x = 0) :
    magnitude v = 0 := by
  unfold magnitude
  rw [dot_self_zero v h, Real.sqrt_zero]

theorem cosine_similarity_zero_left (v b : List ℝ) (h : ∀ x ∈ v, x = 0) :
    cosine_similarity v b = 0 := by
  unfold cosine_similarity
  rw [if_pos (Or.inl (magnitude_zero_of_allzero v h))]

/-- With `alpha = 0`, EMA fusion against an all-zero previous vector yields an
all-zero vector. -/
theorem ema_fusion_allzero (c p : List ℝ) (h : ∀ x ∈ p, x = 0) :
    ∀ x ∈ ema_fusion c p 0, x = 0 := by
  intro x hx
  unfold ema_fusion at hx
  rcases List.mem_map.mp hx with ⟨⟨a, b⟩, hp, rfl⟩
  have hb := (List.of_mem_zip hp).2
  rw [h b hb]
  ring

/-- One successful call on an `alpha = 0` engine with all-zero state: the
state stays all-zero, and when the call is not the baseline one the drift
score is exactly `1` with detection holding exactly when the threshold is
positive. -/
theorem update_alpha_zero_step (e : WasmStateEngine) (emb : List ℝ) (now : ℝ)
    (r : UpdateResult) (e₂ : WasmStateEngine)
    (ha : e.alpha = 0) (hz : ∀ x ∈ e.state_vector, x = 0)
    (h : e.update emb now = (Except.ok r, e₂)) :
    e₂.alpha = 0 ∧ (∀ x ∈ e₂.state_vector, x = 0) ∧
    (e.update_count ≠ 0 →
      r.drift_score = 1 ∧ (r.drift_detected = true ↔ 0 < e.drift_threshold)) := by
  rcases (update_ok_cases e emb now r e₂ h).2 with ⟨hc, hr, he2⟩ | ⟨hc, hlen, hr, he2⟩
  · subst he2
    refine ⟨ha, ?_, fun hcc => absurd hc hcc⟩
    dsimp only
    rw [ha]
    exact ema_fusion_allzero _ _ (fun x hx => List.eq_of_mem_replicate hx)
  · subst he2
    have hsim : cosine_similarity e.state_vector emb = 0 :=
      cosine_similarity_zero_left _ _ hz
    refine ⟨ha, ?_, fun _ => ?_⟩
    · dsimp only
      rw [ha]
      exact ema_fusion_allzero _ _ hz
    · subst hr
      dsimp only
      rw [hsim]
      refine ⟨by ring, ?_⟩
      simp

/-- Runs of an `alpha = 0` engine keep the state vector all-zero. -/
theorem runCalls_alpha_zero (calls : List (List ℝ × ℝ)) :
    ∀ e : WasmStateEngine, e.alpha = 0 → (∀ x ∈ e.state_vector, x = 0) →
    (runCalls e calls).alpha = 0 ∧
    ∀ x ∈ (runCalls e calls).state_vector, x = 0 := by
  induction calls with
  | nil => intro e ha hz; exact ⟨ha, hz⟩
  | cons c cs ih =>
    intro e ha hz
    have hstep : ((e.update c.1 c.2).2).alpha = 0 ∧
        ∀ x ∈ ((e.update c.1 c.2).2).state_vector, x = 0 := by
      rcases hu : e.update c.1 c.2 with ⟨res, e₂⟩
      cases res with
      | error msg =>
        have he2 : e₂ = e := by
          have hx := update_error_state e c.1 c.2 msg (by rw [hu])
          rw [hu] at hx
          exact hx
        subst he2
        exact ⟨ha, hz⟩
      | ok r =>
        have := update_alpha_zero_step e c.1 c.2 r e₂ ha hz hu
        exact ⟨this.1, this.2.1⟩
    have hrun : runCalls e (c :: cs) = runCalls ((e.update c.1 c.2).2) cs := rfl
    rw [hrun]
    exact ih _ hstep.1 hstep.2

/-- Claim C10: an engine constructed with `alpha = 0` keeps an all-zero state
vector through every sequence of calls, and each successful non-baseline
update gets similarity `0`, hence drift score exactly `1` and detection
exactly when the threshold is positive. -/
theorem C10_alpha_zero :
    (∀ (θ : ℝ) (calls : List (List ℝ × ℝ)),
        ∀ x ∈ (runCalls (WasmStateEngine.new 0 θ) calls).state_vector, x = 0) ∧
    (∀ (e : WasmStateEngine) (emb : List ℝ) (now : ℝ) (r : UpdateResult)
        (e₂ : WasmStateEngine),
        e.alpha = 0 → (∀ x ∈ e.state_vector, x = 0) → e.update_count ≠ 0 →
        e.update emb now = (Except.ok r, e₂) →
        r.drift_score = 1 ∧ (r.drift_detected = true ↔ 0 < e.drift_threshold) ∧
        ∀ x ∈ e₂.state_vector, x = 0) := by
  constructor
  · intro θ calls
    exact (runCalls_alpha_zero calls (WasmStateEngine.new 0 θ) rfl
      (by intro x hx; simp [WasmStateEngine.new] at hx)).2
  · intro e emb now r e₂ ha hz hcnt h
    have hs := update_alpha_zero_step e emb now r e₂ ha hz h
    have hd := hs.2.2 hcnt
    exact ⟨hd.1, hd.2, hs.2.1⟩

/-- Witness for C10: a tracking `alpha = 0` engine with all-zero state
`[0, 0]` updated with `[3, 4]` reports drift score `1`. -/
theorem C10_witness :
    (UpdateResult.mk
        (decide (cosine_similarity [(0 : ℝ), 0] [3, 4] < (1 : ℝ)))
        (1 - cosine_similarity [(0 : ℝ), 0] [3, 4]) [3, 4]).drift_score = 1 :=
  (C10_alpha_zero.2 ⟨0, 1, [0, 0], 0, 0, 1⟩ [3, 4] 7 _
    ((⟨0, 1, [0, 0], 0, 0, 1⟩ : WasmStateEngine).update [3, 4] 7).2
    rfl (by intro x hx; simp at hx; exact hx)
    (by simp) rfl).1

/-- Claim C9: for every pair of equal-length vectors `c` and `p`,
`ema_fusion c p 1` is elementwise exactly `c` and `ema_fusion c p 0` is
elementwise exactly `p`. -/
theorem C9_ema_fusion_endpoints (c p : List ℝ) (h : c.length = p.length) :
    ema_fusion c p 1 = c ∧ ema_fusion c p 0 = p :=
  ⟨ema_fusion_one c p h, ema_fusion_zero c p h⟩

/-- Witness for C9 at `c = [3, 1, 4]`, `p = [0, 5, 0]`. -/
theorem C9_witness :
    ([3, 1, 4] : List ℝ).length = ([0, 5, 0] : List ℝ).length ∧
    (ema_fusion [3, 1, 4] [0, 5, 0] 1 = [3, 1, 4] ∧
     ema_fusion [3, 1, 4] [0, 5, 0] 0 = [0, 5, 0]) :=
  ⟨by simp, C9_ema_fusion_endpoints [3, 1, 4] [0, 5, 0] (by simp)⟩

/-- Claim C8: the semantic summary of a snapshot is "stable" exactly when the
health score exceeds 0.8, "drifting" exactly when it is in (0.5, 0.8], and
"volatile" exactly when it is at most 0.5; boundaries fall in the lower
bucket. -/
theorem C8_summary_buckets (e : WasmStateEngine) (now : ℝ) :
    ((e.get_snapshot now).semantic_summary = "stable"
        ↔ 0.8 < (e.get_snapshot now).health_score) ∧
    ((e.get_snapshot now).semantic_summary = "drifting"
        ↔ 0.5 < (e.get_snapshot now).health_score
          ∧ (e.get_snapshot now).health_score ≤ 0.8) ∧
    ((e.get_snapshot now).semantic_summary = "volatile"
        ↔ (e.get_snapshot now).health_score ≤ 0.5) := by
  have hs : (e.get_snapshot now).semantic_summary
      = WasmStateEngine.build_summary (e.calculate_health now) := rfl
  have hh : (e.get_snapshot now).health_score = e.calculate_health now := rfl
  rw [hs, hh]
  unfold WasmStateEngine.build_summary
  by_cases h1 : e.calculate_health now > 0.8
  · rw [if_pos h1]
    refine ⟨⟨fun _ => h1, fun _ => rfl⟩, ?_, ?_⟩
    · constructor
      · intro hsd; exact absurd hsd (by decide)
      · rintro ⟨_, hle⟩; exact absurd h1 (not_lt.mpr hle)
    · constructor
      · intro hsv; exact absurd hsv (by decide)
      · intro hle; exact absurd h1 (not_lt.mpr (by linarith))
  · rw [if_neg h1]
    by_cases h2 : e.calculate_health now > 0.5
    · rw [if_pos h2]
      refine ⟨?_, ?_, ?_⟩
      · constructor
        · intro hds; exact absurd hds (by decide)
        · intro hgt; exact absurd hgt h1
      · exact ⟨fun _ => ⟨h2, not_lt.mp h1⟩, fun _ => rfl⟩
      · constructor
        · intro hdv; exact absurd hdv (by decide)
        · intro hle; exact absurd h2 (not_lt.mpr hle)
    · rw [if_neg h2]
      refine ⟨?_, ?_, ?_⟩
      · constructor
        · intro hvs; exact absurd hvs (by decide)
        · intro hgt; exact absurd hgt h1
      · constructor
        · intro hvd; exact absurd hvd (by decide)
        · rintro ⟨hgt, _⟩; exact absurd hgt h2
      · exact ⟨fun _ => not_lt.mp h2, fun _ => rfl⟩

/-- Claim C7: the snapshot's health score is
`clamp (1 - max 0 (now - lastUpdatedAt) * 0.0001 - lastDrift * 0.5) 0 1`,
and a `now` earlier than `lastUpdatedAt` yields the same health as zero
elapsed time. -/
theorem C7_health_clamped (e : WasmStateEngine) (now : ℝ) :
    (e.get_snapshot now).health_score
      = max 0 (min (1 - max 0 (now - e.last_updated_at) * 0.0001
          - e.last_drift * 0.5) 1) ∧
    (now ≤ e.last_updated_at →
      (e.get_snapshot now).health_score
        = (e.get_snapshot e.last_updated_at).health_score) := by
  constructor
  · show e.calculate_health now = _
    unfold WasmStateEngine.calculate_health rclamp AGE_DECAY_RATE DRIFT_WEIGHT
    rw [max_comm (now - e.last_updated_at) 0]
  · intro hle
    show e.calculate_health now = e.calculate_health e.last_updated_at
    unfold WasmStateEngine.calculate_health
    rw [max_eq_right (sub_nonpos.mpr hle), sub_self, max_self]

/-- Witness for C7: for a freshly constructed engine, a `now` of `-3`
(earlier than the last-update time `0`) gives the same health score as
`now = 0`. -/
theorem C7_witness :
    ((WasmStateEngine.new 1 1).get_snapshot (-3)).health_score
      = ((WasmStateEngine.new 1 1).get_snapshot
          ((WasmStateEngine.new 1 1).last_updated_at)).health_score :=
  (C7_health_clamped (WasmStateEngine.new 1 1) (-3)).2
    (by norm_num [WasmStateEngine.new])

theorem magnitude_half_zero_ne : magnitude [(1 : ℝ)/2, 0] ≠ 0 := by
  unfold magnitude
  rw [Real.sqrt_ne_zero']
  norm_num [dot]

theorem magnitude_unit_ne : magnitude [(0 : ℝ), 1] ≠ 0 := by
  unfold magnitude
  rw [Real.sqrt_ne_zero']
  norm_num [dot]

theorem cosine_similarity_orthogonal :
    cosine_similarity [(1 : ℝ)/2, 0] [0, 1] = 0 := by
  unfold cosine_similarity
  rw [if_neg (not_or.mpr ⟨magnitude_half_zero_ne, magnitude_unit_ne⟩)]
  have hd : dot [(1 : ℝ)/2, 0] [0, 1] = 0 := by norm_num [dot]
  rw [hd, zero_div]
  unfold rclamp
  norm_num

/-- Claim C1: with `alpha = 1/2` and threshold `1/2`, `update [1,0]` at `t=0`
returns no drift with score `0` and leaves state `[1/2, 0]`; the following
`update [0,1]` at `t=1` returns score `1` with drift detected and leaves
state `[1/4, 1/2]`. -/
theorem C1_concrete_trace :
    ((WasmStateEngine.new (1/2) (1/2)).update [1, 0] 0).1
        = Except.ok ⟨false, 0, [1, 0]⟩ ∧
    ((WasmStateEngine.new (1/2) (1/2)).update [1, 0] 0).2.state_vector
        = [1/2, 0] ∧
    (((WasmStateEngine.new (1/2) (1/2)).update [1, 0] 0).2.update [0, 1] 1).1
        = Except.ok ⟨true, 1, [0, 1]⟩ ∧
    (((WasmStateEngine.new (1/2) (1/2)).update [1, 0] 0).2.update [0, 1] 1).2.state_vector
        = [1/4, 1/2] := by
  have h1 : (WasmStateEngine.new (1/2) (1/2)).update [1, 0] 0
      = (Except.ok ⟨false, 0, [1, 0]⟩,
         ⟨1/2, 1/2, [1/2, 0], 0, 0, 1⟩) := by
    unfold WasmStateEngine.update WasmStateEngine.new
    norm_num [ema_fusion, List.replicate]
  have h2 : (⟨1/2, 1/2, [1/2, 0], 0, 0, 1⟩ : WasmStateEngine).update [0, 1] 1
      = (Except.ok ⟨true, 1, [0, 1]⟩, ⟨1/2, 1/2, [1/4, 1/2], 1, 1, 2⟩) := by
    unfold WasmStateEngine.update
    norm_num [cosine_similarity_orthogonal, ema_fusion]
  rw [h1]
  dsimp only
  rw [h2]
  norm_num

end SemanticState
